import Mathlib

/-!
Verification of the query-evaluation driver (`src/evaluate_queries.cpp`) of
the PISA search engine, together with spec-modelled components (query
processors, accumulators, score-bound table) that the driver dispatches to.

Scores are modelled as rationals; a result is a (score, document-id) pair,
matching the driver's result type.
-/

namespace PisaEval

abbrev Score := ℚ

/-- A result returned by a query processor: (score, internal document id),
matching the driver's result pair type. -/
abbrev Result := Score × Nat

/-- A parsed query: an optional external identifier plus a term-id sequence. -/
structure Query where
  id : Option String
  terms : List Nat
deriving Repr, DecidableEq

/-- One output record of the driver, with the six fields written per result
line: query id, run-iteration label, external document id, rank, score,
run id. -/
structure OutputLine where
  queryId : String
  iteration : String
  docId : String
  rank : Nat
  score : Score
  runId : String
deriving Repr, DecidableEq

/-- Rendering of one output record as the tab-separated line the driver
prints. -/
def renderLine (l : OutputLine) : String :=
  l.queryId ++ "\t" ++ l.iteration ++ "\t" ++ l.docId ++ "\t" ++
    toString l.rank ++ "\t" ++ toString l.score ++ "\t" ++ l.runId ++ "\n"

/-- The eight retrieval algorithms the driver dispatches on. -/
inductive Alg where
  | wand
  | blockMaxWand
  | blockMaxMaxscore
  | rankedAnd
  | rankedOr
  | maxscore
  | rankedOrTaat
  | rankedOrTaatLazy
deriving Repr, DecidableEq

/-- The algorithm identifiers recognized by the driver's dispatch chain. -/
def recognizedAlgorithms : List String :=
  ["wand", "block_max_wand", "block_max_maxscore", "ranked_and",
   "ranked_or", "maxscore", "ranked_or_taat", "ranked_or_taat_lazy"]

/-- The driver's dispatch chain (source lines 59-114): each branch tests
the algorithm name together with presence of the wand-data file; if no
branch fires, the per-query function is left unassigned. -/
def selectAlgorithm (queryType : String) (wandPresent : Bool) : Option Alg :=
  if queryType = "wand" ∧ wandPresent then some Alg.wand
  else if queryType = "block_max_wand" ∧ wandPresent then some Alg.blockMaxWand
  else if queryType = "block_max_maxscore" ∧ wandPresent then some Alg.blockMaxMaxscore
  else if queryType = "ranked_and" ∧ wandPresent then some Alg.rankedAnd
  else if queryType = "ranked_or" ∧ wandPresent then some Alg.rankedOr
  else if queryType = "maxscore" ∧ wandPresent then some Alg.maxscore
  else if queryType = "ranked_or_taat" ∧ wandPresent then some Alg.rankedOrTaat
  else if queryType = "ranked_or_taat_lazy" ∧ wandPresent then some Alg.rankedOrTaatLazy
  else none

/-- Abnormal terminations the driver can reach while printing results:
invoking the unassigned per-query function, or an out-of-range document-map
lookup. -/
inductive Crash where
  | badFunctionCall
  | outOfRange
deriving Repr, DecidableEq

/-- Observable outcome of one run of the driver body: error messages
logged, whether it aborted, the output lines printed, the abnormal
termination if any, the number of per-query evaluations that ran, and how
many term-at-a-time accumulators were allocated. -/
structure EvalOutcome where
  errors : List String
  aborted : Bool
  output : List OutputLine
  crash : Option Crash
  invocations : Nat
  accAllocs : Nat
deriving Repr, DecidableEq

/-- Bounds-checked vector lookup, as performed by the document map's
checked access: out of range raises rather than returning a value. -/
def atChecked (xs : List String) (i : Nat) : Except Unit String :=
  if h : i < xs.length then Except.ok (xs.get ⟨i, h⟩) else Except.error ()

/-- The inner result loop of the driver (source lines 118-122): one line
per result, rank counting up from 0; a failed document-map lookup stops
the run with an out-of-range error before printing that line. -/
def emitLoop (docmap : List String) (qidStr iteration runId : String)
    (rank : Nat) : List Result → List OutputLine × Option Crash
  | [] => ([], none)
  | r :: rs =>
    match atChecked docmap r.2 with
    | Except.error _ => ([], some Crash.outOfRange)
    | Except.ok d =>
      let line : OutputLine :=
        ⟨qidStr, iteration, d, rank, r.1, runId⟩
      let rest := emitLoop docmap qidStr iteration runId (rank + 1) rs
      (line :: rest.1, rest.2)

/-- The outer query loop of the driver (source lines 116-123): for each
enumerated query, invoke the per-query function (invoking it while
unassigned terminates the run), then print one line per result, using the
query's external id or, absent one, its 0-based position. -/
def queryLoop (queryFun : Option (List Nat → List Result))
    (docmap : List String) (iteration runId : String) :
    List (Nat × Query) → List OutputLine × Option Crash × Nat
  | [] => ([], none, 0)
  | (qid, q) :: rest =>
    match queryFun with
    | none => ([], some Crash.badFunctionCall, 0)
    | some f =>
      let results := f q.terms
      let emitted := emitLoop docmap (q.id.getD (toString qid)) iteration runId 0 results
      match emitted.2 with
      | some c => (emitted.1, some c, 1)
      | none =>
        let later := queryLoop queryFun docmap iteration runId rest
        (emitted.1 ++ later.1, later.2.1, later.2.2 + 1)

/-- The driver parameters that determine its control flow. -/
structure EvalConfig where
  wandPresent : Bool
  wandMapError : Bool
  queryType : String
  k : Nat
  iteration : String
  runId : String
deriving Repr, DecidableEq

/-- The body of `evaluate_queries` (source lines 30-124): map the
wand-data file if given, aborting on a mapping error; assign the
per-query function by the dispatch chain, logging a configuration error
when no branch fires; allocate the term-at-a-time accumulator once, before
the loop, in the two taat branches; then run the query loop. The query
processors themselves are abstracted by `engine`. -/
def evaluate_queries (cfg : EvalConfig)
    (engine : Nat → Alg → List Nat → List Result)
    (docmap : List String) (queries : List Query) : EvalOutcome :=
  if cfg.wandPresent ∧ cfg.wandMapError then
    { errors := ["error mapping file"], aborted := true, output := [],
      crash := none, invocations := 0, accAllocs := 0 }
  else
    match selectAlgorithm cfg.queryType cfg.wandPresent with
    | some alg =>
      let allocs := if alg = Alg.rankedOrTaat ∨ alg = Alg.rankedOrTaatLazy then 1 else 0
      let res := queryLoop (some (engine cfg.k alg)) docmap cfg.iteration cfg.runId
        queries.enum
      { errors := [], aborted := false, output := res.1, crash := res.2.1,
        invocations := res.2.2, accAllocs := allocs }
    | none =>
      let res := queryLoop none docmap cfg.iteration cfg.runId queries.enum
      { errors := ["Unsupported query type"], aborted := false, output := res.1,
        crash := res.2.1, invocations := res.2.2, accAllocs := 0 }

/-- Observable outcome of `main` after query parsing: errors logged at
type dispatch and, when a branch fired, the outcome of `evaluate_queries`. -/
structure MainOutcome where
  errors : List String
  eval : Option EvalOutcome
deriving Repr, DecidableEq

/-- The index-type dispatch of `main` (source lines 186-206): if the type
string matches a known index type, call `evaluate_queries`, instantiated
with the compressed or raw wand representation according to the
`--compressed-wand` flag; otherwise log the unknown type once and do
nothing else. The list of known index types is a parameter (it comes from
a header outside this file's sources). -/
def mainDispatch (validTypes : List String) (type : String) (compressed : Bool)
    (cfg : EvalConfig)
    (engineRaw engineCompressed : Nat → Alg → List Nat → List Result)
    (docmap : List String) (queries : List Query) : MainOutcome :=
  if type ∈ validTypes then
    { errors := [],
      eval := some (evaluate_queries cfg
        (if compressed then engineCompressed else engineRaw) docmap queries) }
  else
    { errors := ["Unknown type"], eval := none }

/-! ### Spec-modelled components

The query processors, the accumulators and the score-bound table live in
headers outside this file's sources; they are modelled from the spec. -/

/-- Modelled from the spec: the drain order of the Top-K Selector (the
query-processor headers are outside the sources): score descending, ties
broken by document id ascending. -/
def tkLE (a b : Result) : Prop := b.1 < a.1 ∨ (a.1 = b.1 ∧ a.2 ≤ b.2)

instance (a b : Result) : Decidable (tkLE a b) :=
  inferInstanceAs (Decidable (_ ∨ _))

instance : IsTotal Result tkLE := by
  constructor
  intro a b
  rcases lt_trichotomy a.1 b.1 with h | h | h
  · exact Or.inr (Or.inl h)
  · rcases Nat.le_total a.2 b.2 with h2 | h2
    · exact Or.inl (Or.inr ⟨h, h2⟩)
    · exact Or.inr (Or.inr ⟨h.symm, h2⟩)
  · exact Or.inl (Or.inl h)

instance : IsTrans Result tkLE := by
  constructor
  intro a b c hab hbc
  rcases hab with h1 | ⟨h1, h1d⟩
  · rcases hbc with h2 | ⟨h2, _⟩
    · exact Or.inl (h2.trans h1)
    · exact Or.inl (h2 ▸ h1)
  · rcases hbc with h2 | ⟨h2, h2d⟩
    · exact Or.inl (h1 ▸ h2)
    · exact Or.inr ⟨h1.trans h2, h1d.trans h2d⟩

/-- Modelled from the spec: draining the Top-K Selector yields the
entries sorted by `tkLE`, truncated to the best K. -/
def topk (k : Nat) (rs : List Result) : List Result :=
  (List.insertionSort tkLE rs).take k

/-- Modelled from the spec: the dense accumulator
(`accumulator/lazy_accumulator.hpp` is outside the sources) preallocates
one zero slot per document. -/
structure Simple_Accumulator where
  scores : List Score
deriving Repr, DecidableEq

/-- Modelled from the spec: dense accumulator allocation, one zero slot
per document. -/
def Simple_Accumulator.init (numDocs : Nat) : Simple_Accumulator :=
  ⟨List.replicate numDocs 0⟩

/-- Modelled from the spec: a dense-accumulator write adds the score
delta into the document's slot. -/
def Simple_Accumulator.accumulate (a : Simple_Accumulator) (doc : Nat)
    (delta : Score) : Simple_Accumulator :=
  ⟨a.scores.set doc (a.scores.getD doc 0 + delta)⟩

/-- The running score the dense accumulator holds for a document. -/
def Simple_Accumulator.read (a : Simple_Accumulator) (doc : Nat) : Score :=
  a.scores.getD doc 0

/-- Modelled from the spec: resetting the dense accumulator zeroes every
slot in place. -/
def Simple_Accumulator.reset (a : Simple_Accumulator) : Simple_Accumulator :=
  ⟨List.replicate a.scores.length 0⟩

/-- Modelled from the spec: the lazy/blocked accumulator partitions the
document range into fixed-size blocks and materializes a block's slots
only on first write; an unmaterialized block reads as zero. -/
structure Lazy_Accumulator where
  blockSize : Nat
  blocks : List (Option (List Score))
deriving Repr, DecidableEq

/-- Modelled from the spec: lazy-accumulator allocation, enough blocks to
cover the document range, none materialized. -/
def Lazy_Accumulator.init (blockSize numDocs : Nat) : Lazy_Accumulator :=
  ⟨blockSize, List.replicate ((numDocs + blockSize - 1) / blockSize) none⟩

/-- The slots of a block as the lazy accumulator sees them: the stored
slots when the block is materialized, zeros otherwise. -/
def Lazy_Accumulator.blockAt (a : Lazy_Accumulator) (b : Nat) : List Score :=
  (a.blocks.getD b none).getD (List.replicate a.blockSize 0)

/-- Modelled from the spec: a lazy-accumulator write materializes the
target block (as zeros) if needed, then adds the score delta into the
document's slot. -/
def Lazy_Accumulator.accumulate (a : Lazy_Accumulator) (doc : Nat)
    (delta : Score) : Lazy_Accumulator :=
  ⟨a.blockSize, a.blocks.set (doc / a.blockSize)
    (some ((a.blockAt (doc / a.blockSize)).set (doc % a.blockSize)
      ((a.blockAt (doc / a.blockSize)).getD (doc % a.blockSize) 0 + delta)))⟩

/-- The running score the lazy accumulator holds for a document. -/
def Lazy_Accumulator.read (a : Lazy_Accumulator) (doc : Nat) : Score :=
  match a.blocks.getD (doc / a.blockSize) none with
  | none => 0
  | some bl => bl.getD (doc % a.blockSize) 0

/-- The (document, score-delta) write sequence that term-at-a-time
evaluation feeds the accumulator: every posting of every query term, one
term after the other. -/
def writesOf (postings : List (List (Nat × Score))) : List (Nat × Score) :=
  postings.flatten

/-- Feed a write sequence to the dense accumulator. -/
def Simple_Accumulator.applyAll (a : Simple_Accumulator)
    (ws : List (Nat × Score)) : Simple_Accumulator :=
  ws.foldl (fun a w => a.accumulate w.1 w.2) a

/-- Feed a write sequence to the lazy accumulator. -/
def Lazy_Accumulator.applyAll (a : Lazy_Accumulator)
    (ws : List (Nat × Score)) : Lazy_Accumulator :=
  ws.foldl (fun a w => a.accumulate w.1 w.2) a

/-- Modelled from the spec: the final scan of term-at-a-time evaluation
inserts every non-zero accumulator entry into the Top-K Selector. -/
def drain (numDocs : Nat) (read : Nat → Score) : List Result :=
  (List.range numDocs).filterMap
    (fun d => if read d = 0 then none else some (read d, d))

/-- Modelled from the spec: the ranked_or_taat processor over the dense
accumulator: accumulate every term's postings, then drain the non-zero
entries through the Top-K Selector. -/
def ranked_or_taat_dense (k numDocs : Nat)
    (postings : List (List (Nat × Score))) : List Result :=
  topk k (drain numDocs
    ((Simple_Accumulator.init numDocs).applyAll (writesOf postings)).read)

/-- Modelled from the spec: the ranked_or_taat_lazy processor, identical
but over the lazy/blocked accumulator. -/
def ranked_or_taat_lazy (k blockSize numDocs : Nat)
    (postings : List (List (Nat × Score))) : List Result :=
  topk k (drain numDocs
    ((Lazy_Accumulator.init blockSize numDocs).applyAll (writesOf postings)).read)

/-- Modelled from the spec: the term-at-a-time branches of the driver
reuse one accumulator across the query loop, resetting it at the start of
each evaluation (spec sections 4.8 and 9); each query contributes the
drained top K of its own accumulated postings. -/
def taatRun (k numDocs : Nat) (postingsOf : Nat → List (Nat × Score)) :
    Simple_Accumulator → List (List Nat) → List (List Result)
  | _, [] => []
  | acc, ts :: rest =>
    let acc1 := acc.reset.applyAll (writesOf (ts.map postingsOf))
    topk k (drain numDocs acc1.read) :: taatRun k numDocs postingsOf acc1 rest

/-- Modelled from the spec: the raw score-bound layout stores the true
per-term maximum exactly. -/
def rawBound (trueMax : Score) : Score := trueMax

/-- Modelled from the spec: the compressed/quantized score-bound layout
(`wand_data_compressed.hpp` is outside the sources) stores each bound on a
uniform grid, rounded up so a stored bound never understates the true
maximum it covers. -/
def quantize (grid x : Score) : Nat := ⌈x / grid⌉₊

/-- Reconstruction of a quantized bound. -/
def dequantize (grid : Score) (q : Nat) : Score := q * grid

/-- The bound the compressed layout reports for a true maximum. -/
def compressedBound (grid trueMax : Score) : Score :=
  dequantize grid (quantize grid trueMax)

/-- The score bound the driver consults, selected by the
`--compressed-wand` flag (source lines 126-127 and 191-198). -/
def boundFor (compressed : Bool) (grid trueMax : Score) : Score :=
  if compressed then compressedBound grid trueMax else rawBound trueMax

/-- The output lines the driver prints for one enumerated query: one per
result, carrying the query's external id (or its 0-based position when it
has none), the run-iteration label, the mapped external document id, the
0-based rank and the score. -/
def linesOf (docmap : List String) (it rid : String)
    (f : List Nat → List Result) (p : Nat × Query) : List OutputLine :=
  ((f p.2.terms).enum).map
    (fun q => ⟨p.2.id.getD (toString p.1), it, docmap.getD q.2.2 "", q.1, q.2.1, rid⟩)

/-- Well-formedness of the lazy accumulator: positive block size and every
materialized block holding exactly one slot per document of the block. -/
def LazyWF (a : Lazy_Accumulator) : Prop :=
  0 < a.blockSize ∧ ∀ ob ∈ a.blocks, ∀ bl, ob = some bl → bl.length = a.blockSize

/-! ### Helper lemmas -/

/-- When no dispatch branch fires (unrecognized name, or missing wand
data), the per-query function is left unassigned. -/
lemma selectAlgorithm_none (qt : String) (wp : Bool)
    (h : qt ∉ recognizedAlgorithms ∨ wp = false) :
    selectAlgorithm qt wp = none := by
  rcases h with h | h
  · simp only [recognizedAlgorithms, List.mem_cons, List.not_mem_nil, or_false,
      not_or] at h
    obtain ⟨h1, h2, h3, h4, h5, h6, h7, h8⟩ := h
    simp [selectAlgorithm, h1, h2, h3, h4, h5, h6, h7, h8]
  · subst h
    simp [selectAlgorithm]

/-- The query loop with the per-query function unassigned prints nothing
and performs no evaluation, whatever the query list. -/
lemma queryLoop_none (docmap : List String) (it rid : String)
    (l : List (Nat × Query)) :
    (queryLoop none docmap it rid l).1 = [] ∧
    (queryLoop none docmap it rid l).2.2 = 0 := by
  cases l <;> simp [queryLoop]

/-- A checked lookup within bounds returns the mapped external id. -/
lemma atChecked_lt (docmap : List String) (i : Nat) (h : i < docmap.length) :
    atChecked docmap i = Except.ok (docmap.getD i "") := by
  simp [atChecked, h, List.getD_eq_getElem?_getD, List.getElem?_eq_getElem h]

/-- When every result's document id is within the document map, the
result loop prints one line per result, ranks counting up from the
starting rank, each line carrying the fixed query fields, the mapped
external id, the rank and the score. -/
lemma emitLoop_ok (docmap : List String) (qs it rid : String) (rs : List Result)
    (rank : Nat) (h : ∀ r ∈ rs, r.2 < docmap.length) :
    emitLoop docmap qs it rid rank rs =
      ((rs.enumFrom rank).map
        (fun p => ⟨qs, it, docmap.getD p.2.2 "", p.1, p.2.1, rid⟩), none) := by
  induction rs generalizing rank with
  | nil => simp [emitLoop, List.enumFrom]
  | cons r rs ih =>
    have h1 : r.2 < docmap.length := h r (List.mem_cons_self _ _)
    have h2 := ih (rank + 1) (fun x hx => h x (List.mem_cons_of_mem _ hx))
    simp [emitLoop, atChecked_lt docmap r.2 h1, h2, List.enumFrom]

/-- When the per-query function is assigned and every produced document id
is within the document map, the query loop runs every query and prints
exactly the concatenation of each query's lines. -/
lemma queryLoop_some (docmap : List String) (it rid : String)
    (f : List Nat → List Result) (l : List (Nat × Query))
    (h : ∀ p ∈ l, ∀ r ∈ f p.2.terms, r.2 < docmap.length) :
    queryLoop (some f) docmap it rid l =
      (l.flatMap (linesOf docmap it rid f), none, l.length) := by
  induction l with
  | nil => simp [queryLoop]
  | cons p rest ih =>
    have h1 := h p (List.mem_cons_self _ _)
    have h2 := ih (fun x hx => h x (List.mem_cons_of_mem _ hx))
    obtain ⟨qid, q⟩ := p
    simp only [queryLoop, emitLoop_ok docmap (q.id.getD (toString qid)) it rid _ 0 h1, h2,
      List.flatMap_cons]
    rfl

/-! ### Claim theorems -/

/-- Claim C1: if the algorithm selector is not one of the eight recognized
identifiers, or the selected algorithm requires the score-bound table and
no wand-data file was supplied, the driver logs the configuration error
and the per-query evaluation function is never invoked: no query is
evaluated and no result line is printed. -/
theorem claim_C1 (cfg : EvalConfig) (engine : Nat → Alg → List Nat → List Result)
    (docmap : List String) (queries : List Query)
    (hmap : cfg.wandMapError = false)
    (halg : cfg.queryType ∉ recognizedAlgorithms ∨ cfg.wandPresent = false) :
    (evaluate_queries cfg engine docmap queries).errors = ["Unsupported query type"] ∧
    (evaluate_queries cfg engine docmap queries).invocations = 0 ∧
    (evaluate_queries cfg engine docmap queries).output = [] := by
  have hsel := selectAlgorithm_none cfg.queryType cfg.wandPresent halg
  have hq := queryLoop_none docmap cfg.iteration cfg.runId queries.enum
  refine ⟨?_, ?_, ?_⟩ <;> simp [evaluate_queries, hmap, hsel, hq.1, hq.2]

/-- Witness for claim C1 at a concrete unrecognized selector. -/
theorem claim_C1_witness :
    (evaluate_queries ⟨true, false, "foo", 10, "Q0", "R0"⟩ (fun _ _ _ => [])
        ["d0"] [⟨none, [0]⟩]).errors = ["Unsupported query type"] ∧
    (evaluate_queries ⟨true, false, "foo", 10, "Q0", "R0"⟩ (fun _ _ _ => [])
        ["d0"] [⟨none, [0]⟩]).invocations = 0 ∧
    (evaluate_queries ⟨true, false, "foo", 10, "Q0", "R0"⟩ (fun _ _ _ => [])
        ["d0"] [⟨none, [0]⟩]).output = [] :=
  claim_C1 _ _ _ _ rfl (by decide)

/-- Claim C5: a mapping error on the wand-data file makes the driver log
the error and abort before evaluating any query; no output line is
printed and no evaluation runs. -/
theorem claim_C5 (cfg : EvalConfig) (engine : Nat → Alg → List Nat → List Result)
    (docmap : List String) (queries : List Query)
    (h1 : cfg.wandPresent = true) (h2 : cfg.wandMapError = true) :
    evaluate_queries cfg engine docmap queries =
      ⟨["error mapping file"], true, [], none, 0, 0⟩ := by
  simp [evaluate_queries, h1, h2]

/-- Witness for claim C5 at a concrete failing mapping. -/
theorem claim_C5_witness :
    evaluate_queries ⟨true, true, "wand", 10, "Q0", "R0"⟩ (fun _ _ _ => [])
        ["d0"] [⟨none, [0]⟩] =
      ⟨["error mapping file"], true, [], none, 0, 0⟩ :=
  claim_C5 _ _ _ _ rfl rfl

/-- Claim C8: an unrecognized index-type string makes `main` log the
configuration error exactly once and terminate without calling the
evaluation routine, hence without evaluating any query or printing any
result line. -/
theorem claim_C8 (validTypes : List String) (type : String) (compressed : Bool)
    (cfg : EvalConfig) (eR eC : Nat → Alg → List Nat → List Result)
    (docmap : List String) (queries : List Query)
    (h : type ∉ validTypes) :
    mainDispatch validTypes type compressed cfg eR eC docmap queries =
      ⟨["Unknown type"], none⟩ ∧
    (mainDispatch validTypes type compressed cfg eR eC docmap queries).errors.length = 1 := by
  constructor <;> simp [mainDispatch, h]

/-- Witness for claim C8 at a concrete unknown index type. -/
theorem claim_C8_witness :
    mainDispatch ["block_simdbp", "block_qmx"] "no_such_index" false
        ⟨true, false, "wand", 10, "Q0", "R0"⟩ (fun _ _ _ => []) (fun _ _ _ => [])
        ["d0"] [⟨none, [0]⟩] = ⟨["Unknown type"], none⟩ ∧
    (mainDispatch ["block_simdbp", "block_qmx"] "no_such_index" false
        ⟨true, false, "wand", 10, "Q0", "R0"⟩ (fun _ _ _ => []) (fun _ _ _ => [])
        ["d0"] [⟨none, [0]⟩]).errors.length = 1 :=
  claim_C8 _ _ _ _ _ _ _ _ (by decide)

/-- Claim C9: a result whose internal document id is at least the size of
the document map makes the checked map lookup raise out-of-range: the run
stops there and neither that line nor any later line of the query is
printed with an arbitrary external id. -/
theorem claim_C9 (docmap : List String) (qs it rid : String) (rank : Nat)
    (s : Score) (d : Nat) (rs : List Result)
    (h : docmap.length ≤ d) :
    emitLoop docmap qs it rid rank ((s, d) :: rs) = ([], some Crash.outOfRange) ∧
    atChecked docmap d = Except.error () := by
  have hd : ¬ d < docmap.length := not_lt.mpr h
  constructor <;> simp [emitLoop, atChecked, hd]

/-- Witness for claim C9 at a concrete out-of-range document id. -/
theorem claim_C9_witness :
    emitLoop ["d0"] "q1" "Q0" "R0" 0 [((3 : Score), 1)] =
      ([], some Crash.outOfRange) ∧
    atChecked ["d0"] 1 = Except.error () :=
  claim_C9 _ _ _ _ _ _ _ _ (by decide)

/-- Claim C10: when the run evaluates (no mapping error, a dispatch branch
fired, every document id in range), the printed output is exactly the
concatenation, over the 0-based enumeration of the query sequence, of each
query's lines; a query without an external identifier is printed under its
0-based position, and one with an identifier is printed under that
identifier unchanged. -/
theorem claim_C10 (cfg : EvalConfig) (engine : Nat → Alg → List Nat → List Result)
    (docmap : List String) (queries : List Query) (alg : Alg)
    (hmap : cfg.wandMapError = false)
    (hsel : selectAlgorithm cfg.queryType cfg.wandPresent = some alg)
    (hrange : ∀ q ∈ queries, ∀ r ∈ engine cfg.k alg q.terms, r.2 < docmap.length) :
    (evaluate_queries cfg engine docmap queries).output =
      queries.enum.flatMap (linesOf docmap cfg.iteration cfg.runId (engine cfg.k alg)) ∧
    (∀ i q, queries[i]? = some q →
      (q.id = none →
        ∀ line ∈ linesOf docmap cfg.iteration cfg.runId (engine cfg.k alg) (i, q),
          line.queryId = toString i) ∧
      (∀ s, q.id = some s →
        ∀ line ∈ linesOf docmap cfg.iteration cfg.runId (engine cfg.k alg) (i, q),
          line.queryId = s)) := by
  constructor
  · have hq := queryLoop_some docmap cfg.iteration cfg.runId (engine cfg.k alg)
      queries.enum
      (fun p hp => hrange p.2 (List.snd_mem_of_mem_enum hp))
    simp [evaluate_queries, hmap, hsel, hq]
  · intro i q _
    constructor
    · intro hnone line hline
      simp only [linesOf, List.mem_map] at hline
      obtain ⟨p, _, hp⟩ := hline
      simp [← hp, hnone]
    · intro s hsome line hline
      simp only [linesOf, List.mem_map] at hline
      obtain ⟨p, _, hp⟩ := hline
      simp [← hp, hsome]

/-- Witness for claim C10: two queries, one without and one with an
external identifier. -/
theorem claim_C10_witness :
    (evaluate_queries ⟨true, false, "ranked_or", 2, "Q0", "R0"⟩
        (fun _ _ _ => [((3 : Score), 0)]) ["doc0"]
        [⟨none, [5]⟩, ⟨some "qx", [7]⟩]).output =
      ([⟨none, [5]⟩, ⟨some "qx", [7]⟩] : List Query).enum.flatMap
        (linesOf ["doc0"] "Q0" "R0" ((fun _ _ _ => [((3 : Score), 0)]) 2 Alg.rankedOr)) ∧
    (∀ i q, ([⟨none, [5]⟩, ⟨some "qx", [7]⟩] : List Query)[i]? = some q →
      (q.id = none →
        ∀ line ∈ linesOf ["doc0"] "Q0" "R0"
            ((fun _ _ _ => [((3 : Score), 0)]) 2 Alg.rankedOr) (i, q),
          line.queryId = toString i) ∧
      (∀ s, q.id = some s →
        ∀ line ∈ linesOf ["doc0"] "Q0" "R0"
            ((fun _ _ _ => [((3 : Score), 0)]) 2 Alg.rankedOr) (i, q),
          line.queryId = s)) :=
  claim_C10 _ _ _ _ Alg.rankedOr rfl (by decide) (by decide)

/-- Claim C2: printing the drained Top-K results of a query emits exactly
one line per result, each carrying the six fields query id, iteration
label, mapped external document id, rank and score and run id, with ranks
consecutive from 0 and scores in descending order. -/
theorem claim_C2 (docmap : List String) (qs it rid : String) (k : Nat)
    (rs : List Result)
    (hrange : ∀ r ∈ topk k rs, r.2 < docmap.length) :
    emitLoop docmap qs it rid 0 (topk k rs) =
      (((topk k rs).enum).map
        (fun p => ⟨qs, it, docmap.getD p.2.2 "", p.1, p.2.1, rid⟩), none) ∧
    ((emitLoop docmap qs it rid 0 (topk k rs)).1).length = (topk k rs).length ∧
    ((emitLoop docmap qs it rid 0 (topk k rs)).1).map OutputLine.rank =
      List.range (topk k rs).length ∧
    (((emitLoop docmap qs it rid 0 (topk k rs)).1).map OutputLine.score).Pairwise
      (fun a b => b ≤ a) := by
  have he : emitLoop docmap qs it rid 0 (topk k rs) =
      (((topk k rs).enum).map
        (fun p => ⟨qs, it, docmap.getD p.2.2 "", p.1, p.2.1, rid⟩), none) :=
    emitLoop_ok docmap qs it rid (topk k rs) 0 hrange
  have h1 : ((emitLoop docmap qs it rid 0 (topk k rs)).1) =
      ((topk k rs).enum).map
        (fun p => ⟨qs, it, docmap.getD p.2.2 "", p.1, p.2.1, rid⟩) := by
    rw [he]
  refine ⟨he, ?_, ?_, ?_⟩
  · rw [h1, List.length_map, List.enum_length]
  · rw [h1, List.map_map]
    have hcomp : (OutputLine.rank ∘ fun p : Nat × Result =>
        (⟨qs, it, docmap.getD p.2.2 "", p.1, p.2.1, rid⟩ : OutputLine)) =
        Prod.fst := rfl
    rw [hcomp, List.enum_map_fst]
  · have hsorted : (topk k rs).Pairwise tkLE :=
      ((List.sorted_insertionSort tkLE rs).sublist
        (List.take_sublist k (List.insertionSort tkLE rs)))
    have hs2 : ((topk k rs).enum).Pairwise (fun a b : Nat × Result => tkLE a.2 b.2) :=
      (List.pairwise_map).mp (by rw [List.enum_map_snd]; exact hsorted)
    rw [h1, List.map_map]
    exact hs2.map _ (fun a b hab => by
      rcases hab with h | ⟨h, _⟩
      · exact le_of_lt h
      · exact le_of_eq h.symm)

/-- Witness for claim C2 on a concrete result list with a score tie. -/
theorem claim_C2_witness :
    emitLoop ["a", "b", "c"] "7" "Q0" "R0" 0 (topk 2 [((1 : Score), 0), (2, 1), (1, 2)]) =
      (((topk 2 [((1 : Score), 0), (2, 1), (1, 2)]).enum).map
        (fun p => ⟨"7", "Q0", (["a", "b", "c"]).getD p.2.2 "", p.1, p.2.1, "R0"⟩), none) ∧
    ((emitLoop ["a", "b", "c"] "7" "Q0" "R0" 0
        (topk 2 [((1 : Score), 0), (2, 1), (1, 2)])).1).length =
      (topk 2 [((1 : Score), 0), (2, 1), (1, 2)]).length ∧
    ((emitLoop ["a", "b", "c"] "7" "Q0" "R0" 0
        (topk 2 [((1 : Score), 0), (2, 1), (1, 2)])).1).map OutputLine.rank =
      List.range (topk 2 [((1 : Score), 0), (2, 1), (1, 2)]).length ∧
    (((emitLoop ["a", "b", "c"] "7" "Q0" "R0" 0
        (topk 2 [((1 : Score), 0), (2, 1), (1, 2)])).1).map OutputLine.score).Pairwise
      (fun a b => b ≤ a) :=
  claim_C2 _ _ _ _ _ _ (by decide)

/-- Claim C4: for either setting of the compressed-wand flag, the score
bound the driver consults never understates the true maximum it covers:
the raw layout stores it exactly and the quantized layout rounds it up, so
pruning against either bound is sound. -/
theorem claim_C4 (grid trueMax : Score) (hg : 0 < grid) :
    ∀ compressed : Bool, trueMax ≤ boundFor compressed grid trueMax := by
  intro c
  cases c
  · simp [boundFor, rawBound]
  · simp only [boundFor, if_true, compressedBound, dequantize, quantize]
    have h1 : trueMax / grid ≤ (⌈trueMax / grid⌉₊ : ℚ) := Nat.le_ceil _
    have h2 : trueMax / grid * grid ≤ (⌈trueMax / grid⌉₊ : ℚ) * grid :=
      mul_le_mul_of_nonneg_right h1 hg.le
    calc trueMax = trueMax / grid * grid := by field_simp
    _ ≤ (⌈trueMax / grid⌉₊ : ℚ) * grid := h2

/-- Witness for claim C4 at a concrete grid and maximum. -/
theorem claim_C4_witness : (3 : Score) ≤ boundFor true 2 3 :=
  claim_C4 2 3 (by norm_num) true

/-- Claim C6: a query with an empty term sequence evaluates normally: the
processor returns no results, so the query contributes zero output lines
and no error, and the loop continues with the remaining queries. -/
theorem claim_C6 (docmap : List String) (it rid : String)
    (f : List Nat → List Result) (hf : f [] = [])
    (qid : Nat) (oid : Option String) (rest : List (Nat × Query)) :
    queryLoop (some f) docmap it rid ((qid, ⟨oid, []⟩) :: rest) =
      ((queryLoop (some f) docmap it rid rest).1,
       (queryLoop (some f) docmap it rid rest).2.1,
       (queryLoop (some f) docmap it rid rest).2.2 + 1) := by
  simp [queryLoop, hf, emitLoop]

/-- Witness for claim C6: the spec-modelled term-at-a-time processor on a
concrete empty-term query. -/
theorem claim_C6_witness :
    queryLoop (some (fun ts => ranked_or_taat_dense 2 3 (ts.map (fun _ => [(0, (1 : Score))]))))
        ["a", "b", "c"] "Q0" "R0" [(0, ⟨none, []⟩)] = ([], none, 1) :=
  claim_C6 _ _ _ _ (by decide) _ _ _

/-! ### Accumulator lemmas -/
/-- Reading a list with a default, at the slot just written, within
bounds. -/
lemma getD_set_eq_of_lt {α : Type} (l : List α) (i : Nat) (x d : α)
    (h : i < l.length) : (l.set i x).getD i d = x := by
  rw [List.getD_eq_getElem?_getD, List.getElem?_set_eq_of_lt x h]
  rfl

/-- Reading a list with a default, away from the slot just written. -/
lemma getD_set_ne {α : Type} (l : List α) (i j : Nat) (x d : α)
    (h : i ≠ j) : (l.set i x).getD j d = l.getD j d := by
  rw [List.getD_eq_getElem?_getD, List.getElem?_set_ne h,
    ← List.getD_eq_getElem?_getD]

/-- Stored zeros read as zero at any offset. -/
lemma getD_replicate_zero (n i : Nat) :
    (List.replicate n (0 : Score)).getD i 0 = 0 := by
  rw [List.getD_eq_getElem?_getD, List.getElem?_replicate]
  by_cases h : i < n <;> simp [h]

/-- A dense-accumulator write preserves the slot count. -/
lemma Simple_Accumulator.length_accumulate (a : Simple_Accumulator) (d0 : Nat)
    (delta : Score) :
    (a.accumulate d0 delta).scores.length = a.scores.length := by
  simp [Simple_Accumulator.accumulate]

/-- Feeding a write sequence to the dense accumulator preserves the slot
count. -/
lemma Simple_Accumulator.length_applyAll (ws : List (Nat × Score)) :
    ∀ a : Simple_Accumulator, (a.applyAll ws).scores.length = a.scores.length := by
  induction ws with
  | nil => intro a; rfl
  | cons w ws ih =>
    intro a
    have := ih (a.accumulate w.1 w.2)
    simpa [Simple_Accumulator.applyAll, Simple_Accumulator.length_accumulate]
      using this

/-- What one dense-accumulator write does to every slot: the target slot
gains the delta, every other slot is unchanged. -/
lemma Simple_Accumulator.dense_read_accumulate (a : Simple_Accumulator) (d0 : Nat)
    (delta : Score) (hd0 : d0 < a.scores.length) (d : Nat) :
    (a.accumulate d0 delta).read d = a.read d + if d = d0 then delta else 0 := by
  unfold Simple_Accumulator.accumulate Simple_Accumulator.read
  by_cases hd : d = d0
  · subst hd
    rw [getD_set_eq_of_lt _ _ _ _ hd0, if_pos rfl]
  · have hne : d0 ≠ d := fun h => hd h.symm
    rw [getD_set_ne _ _ _ _ _ hne, if_neg hd, add_zero]

/-- The zero-initialized dense accumulator reads zero everywhere. -/
lemma Simple_Accumulator.dense_read_init (numDocs d : Nat) :
    (Simple_Accumulator.init numDocs).read d = 0 :=
  getD_replicate_zero numDocs d

/-- A lazy-accumulator write preserves the block size. -/
lemma Lazy_Accumulator.blockSize_accumulate (a : Lazy_Accumulator) (d0 : Nat)
    (delta : Score) :
    (a.accumulate d0 delta).blockSize = a.blockSize := rfl

/-- A lazy-accumulator write preserves the block count. -/
lemma Lazy_Accumulator.length_blocks_accumulate (a : Lazy_Accumulator) (d0 : Nat)
    (delta : Score) :
    (a.accumulate d0 delta).blocks.length = a.blocks.length := by
  simp [Lazy_Accumulator.accumulate]

/-- A materialized block found at some index is one of the stored blocks. -/
lemma Lazy_Accumulator.getD_some_mem {a : Lazy_Accumulator} {b : Nat}
    {bl : List Score} (h : a.blocks.getD b none = some bl) :
    some bl ∈ a.blocks := by
  rw [List.getD_eq_getElem?_getD] at h
  cases hob : a.blocks[b]? with
  | none => rw [hob] at h; simp at h
  | some ob =>
    rw [hob] at h
    simp only [Option.getD_some] at h
    subst h
    exact List.getElem?_mem hob

/-- Every block a well-formed lazy accumulator sees has one slot per
document of the block. -/
lemma Lazy_Accumulator.blockAt_length {a : Lazy_Accumulator} (h : LazyWF a)
    (b : Nat) : (a.blockAt b).length = a.blockSize := by
  unfold Lazy_Accumulator.blockAt
  cases hb : a.blocks.getD b none with
  | none => simp
  | some bl =>
    simpa using h.2 (some bl) (Lazy_Accumulator.getD_some_mem hb) bl rfl

/-- The lazy accumulator's read, uniformly through `blockAt`: the slot at
the document's offset within the document's block. -/
lemma Lazy_Accumulator.read_eq_blockAt (a : Lazy_Accumulator) (d : Nat) :
    a.read d = (a.blockAt (d / a.blockSize)).getD (d % a.blockSize) 0 := by
  unfold Lazy_Accumulator.read Lazy_Accumulator.blockAt
  cases hb : a.blocks.getD (d / a.blockSize) none with
  | none => simp [getD_replicate_zero]
  | some bl => simp

/-- A lazy-accumulator write preserves well-formedness: the freshly
written block still has one slot per document of the block. -/
lemma LazyWF.accumulate {a : Lazy_Accumulator} (h : LazyWF a) (d0 : Nat)
    (delta : Score) : LazyWF (a.accumulate d0 delta) := by
  refine ⟨h.1, ?_⟩
  intro ob hob bl hbl
  rcases List.mem_or_eq_of_mem_set hob with hmem | heq
  · exact h.2 ob hmem bl hbl
  · rw [heq] at hbl
    have hbl2 := Option.some.inj hbl
    rw [← hbl2]
    simpa [List.length_set] using Lazy_Accumulator.blockAt_length h (d0 / a.blockSize)

/-- What a lazy-accumulator write does to the blocks: the target block
gains the delta at the document's offset, every other block is unchanged. -/
lemma Lazy_Accumulator.blockAt_accumulate (a : Lazy_Accumulator) (d0 : Nat)
    (delta : Score) (hcov : d0 / a.blockSize < a.blocks.length) (b : Nat) :
    (a.accumulate d0 delta).blockAt b =
      if b = d0 / a.blockSize then
        (a.blockAt b).set (d0 % a.blockSize)
          ((a.blockAt b).getD (d0 % a.blockSize) 0 + delta)
      else a.blockAt b := by
  have hblocks : (a.accumulate d0 delta).blocks = a.blocks.set (d0 / a.blockSize)
      (some ((a.blockAt (d0 / a.blockSize)).set (d0 % a.blockSize)
        ((a.blockAt (d0 / a.blockSize)).getD (d0 % a.blockSize) 0 + delta))) := rfl
  by_cases hb : b = d0 / a.blockSize
  · rw [if_pos hb]
    show ((a.accumulate d0 delta).blocks.getD b none).getD
        (List.replicate (a.accumulate d0 delta).blockSize 0) = _
    rw [hblocks, Lazy_Accumulator.blockSize_accumulate, hb,
      getD_set_eq_of_lt _ _ _ _ hcov]
    rfl
  · rw [if_neg hb]
    have hne : d0 / a.blockSize ≠ b := fun hh => hb hh.symm
    show ((a.accumulate d0 delta).blocks.getD b none).getD
        (List.replicate (a.accumulate d0 delta).blockSize 0) = _
    rw [hblocks, Lazy_Accumulator.blockSize_accumulate,
      getD_set_ne _ _ _ _ _ hne]
    rfl

/-- What one lazy-accumulator write does to every document's running
score: the target document gains the delta, every other document is
unchanged. -/
lemma Lazy_Accumulator.lazy_read_accumulate (a : Lazy_Accumulator) (hWF : LazyWF a)
    (d0 : Nat) (delta : Score) (hcov : d0 / a.blockSize < a.blocks.length)
    (d : Nat) :
    (a.accumulate d0 delta).read d = a.read d + if d = d0 then delta else 0 := by
  have hB : 0 < a.blockSize := hWF.1
  rw [Lazy_Accumulator.read_eq_blockAt, Lazy_Accumulator.read_eq_blockAt,
    Lazy_Accumulator.blockSize_accumulate,
    Lazy_Accumulator.blockAt_accumulate a d0 delta hcov]
  by_cases hb : d / a.blockSize = d0 / a.blockSize
  · rw [if_pos hb]
    by_cases hd : d = d0
    · subst hd
      rw [if_pos rfl]
      have hoff : d % a.blockSize < (a.blockAt (d / a.blockSize)).length := by
        rw [Lazy_Accumulator.blockAt_length hWF]
        exact Nat.mod_lt d hB
      rw [getD_set_eq_of_lt _ _ _ _ hoff]
    · rw [if_neg hd, add_zero]
      have hoffne : d0 % a.blockSize ≠ d % a.blockSize := by
        intro hoff
        apply hd
        have h1 := Nat.div_add_mod d a.blockSize
        have h2 := Nat.div_add_mod d0 a.blockSize
        rw [hb] at h1
        omega
      rw [getD_set_ne _ _ _ _ _ hoffne]
  · rw [if_neg hb]
    have hd : d ≠ d0 := fun hh => hb (by rw [hh])
    rw [if_neg hd, add_zero]

/-- A freshly allocated slab of unmaterialized blocks reads none at any
index. -/
lemma getD_replicate_none {α : Type} (n i : Nat) :
    (List.replicate n (none : Option α)).getD i none = none := by
  rw [List.getD_eq_getElem?_getD, List.getElem?_replicate]
  by_cases h : i < n <;> simp [h]

/-- The lazy accumulator allocated for a document range is well-formed. -/
lemma LazyWF.init (B numDocs : Nat) (hB : 0 < B) :
    LazyWF (Lazy_Accumulator.init B numDocs) := by
  refine ⟨hB, ?_⟩
  intro ob hob bl hbl
  have h2 := List.eq_of_mem_replicate hob
  rw [h2] at hbl
  exact absurd hbl (by simp)

/-- The freshly allocated lazy accumulator reads zero everywhere. -/
lemma Lazy_Accumulator.lazy_read_init (B numDocs d : Nat) :
    (Lazy_Accumulator.init B numDocs).read d = 0 := by
  have hblocks : (Lazy_Accumulator.init B numDocs).blocks =
      List.replicate ((numDocs + B - 1) / B) none := rfl
  rw [Lazy_Accumulator.read_eq_blockAt]
  unfold Lazy_Accumulator.blockAt
  rw [hblocks, getD_replicate_none]
  simp [getD_replicate_zero]

/-- The block slab allocated for a document range covers it: one slot per
document fits under the rounded-up block count. -/
lemma init_coverage (B numDocs : Nat) (hB : 0 < B) :
    numDocs ≤ ((numDocs + B - 1) / B) * B := by
  have h := Nat.div_add_mod (numDocs + B - 1) B
  have h2 : (numDocs + B - 1) % B < B := Nat.mod_lt _ hB
  have h3 : B * ((numDocs + B - 1) / B) = ((numDocs + B - 1) / B) * B :=
    Nat.mul_comm _ _
  omega

/-- Identical write sequences leave the dense and the lazy accumulator
reading identically at every document, provided both start out reading
identically, the lazy accumulator is well-formed, its blocks cover the
document range, and every write targets a document in range. -/
lemma reads_agree (numDocs : Nat) (ws : List (Nat × Score)) :
    ∀ (da : Simple_Accumulator) (la : Lazy_Accumulator),
    da.scores.length = numDocs → LazyWF la →
    numDocs ≤ la.blocks.length * la.blockSize →
    (∀ d, da.read d = la.read d) →
    (∀ w ∈ ws, w.1 < numDocs) →
    ∀ d, (da.applyAll ws).read d = (la.applyAll ws).read d := by
  induction ws with
  | nil =>
    intro da la _ _ _ hpt _ d
    exact hpt d
  | cons w ws ih =>
    intro da la hlen hWF hcovLen hpt hws d
    have hw : w.1 < numDocs := hws w (List.mem_cons_self _ _)
    have hcov : w.1 / la.blockSize < la.blocks.length :=
      (Nat.div_lt_iff_lt_mul hWF.1).mpr (lt_of_lt_of_le hw hcovLen)
    have hda : da.applyAll (w :: ws) = (da.accumulate w.1 w.2).applyAll ws := rfl
    have hla : la.applyAll (w :: ws) = (la.accumulate w.1 w.2).applyAll ws := rfl
    rw [hda, hla]
    refine ih (da.accumulate w.1 w.2) (la.accumulate w.1 w.2) ?_ ?_ ?_ ?_ ?_ d
    · rw [Simple_Accumulator.length_accumulate]; exact hlen
    · exact hWF.accumulate w.1 w.2
    · rw [Lazy_Accumulator.length_blocks_accumulate,
        Lazy_Accumulator.blockSize_accumulate]
      exact hcovLen
    · intro d2
      rw [Simple_Accumulator.dense_read_accumulate da w.1 w.2 (by rw [hlen]; exact hw) d2,
        Lazy_Accumulator.lazy_read_accumulate la hWF w.1 w.2 hcov d2, hpt d2]
    · intro x hx
      exact hws x (List.mem_cons_of_mem _ hx)

/-- The term-at-a-time run over the reused accumulator, reset at the start
of each evaluation, computes each query's result independently of the
accumulator state it starts from: no state carries between queries. -/
lemma taatRun_eq (k numDocs : Nat) (postingsOf : Nat → List (Nat × Score)) :
    ∀ (qs : List (List Nat)) (acc : Simple_Accumulator),
      acc.scores.length = numDocs →
      taatRun k numDocs postingsOf acc qs =
        qs.map (fun ts => ranked_or_taat_dense k numDocs (ts.map postingsOf)) := by
  intro qs
  induction qs with
  | nil => intro acc _; rfl
  | cons ts rest ih =>
    intro acc hlen
    have hreset : acc.reset = Simple_Accumulator.init numDocs := by
      unfold Simple_Accumulator.reset Simple_Accumulator.init
      rw [hlen]
    have hstep : taatRun k numDocs postingsOf acc (ts :: rest) =
        topk k (drain numDocs
          ((acc.reset.applyAll (writesOf (ts.map postingsOf))).read)) ::
          taatRun k numDocs postingsOf
            (acc.reset.applyAll (writesOf (ts.map postingsOf))) rest := rfl
    rw [hstep, hreset]
    have hlen2 : ((Simple_Accumulator.init numDocs).applyAll
        (writesOf (ts.map postingsOf))).scores.length = numDocs := by
      rw [Simple_Accumulator.length_applyAll]
      simp [Simple_Accumulator.init]
    rw [ih _ hlen2]
    rfl

/-- Claim C3: on identical input (same K, same document range, same
per-term posting lists with in-range documents), the ranked_or_taat
processor over the dense accumulator and the ranked_or_taat_lazy processor
over the lazy/blocked accumulator produce the identical final top-K result
sequence, for any positive block size. -/
theorem claim_C3 (k blockSize numDocs : Nat)
    (postings : List (List (Nat × Score))) (hB : 0 < blockSize)
    (hdocs : ∀ w ∈ writesOf postings, w.1 < numDocs) :
    ranked_or_taat_dense k numDocs postings =
      ranked_or_taat_lazy k blockSize numDocs postings := by
  have hreads : ∀ d,
      ((Simple_Accumulator.init numDocs).applyAll (writesOf postings)).read d =
      ((Lazy_Accumulator.init blockSize numDocs).applyAll (writesOf postings)).read d := by
    refine reads_agree numDocs (writesOf postings) _ _ ?_ ?_ ?_ ?_ hdocs
    · simp [Simple_Accumulator.init]
    · exact LazyWF.init blockSize numDocs hB
    · show numDocs ≤ (List.replicate ((numDocs + blockSize - 1) / blockSize)
        (none : Option (List Score))).length * blockSize
      rw [List.length_replicate]
      exact init_coverage blockSize numDocs hB
    · intro d
      rw [Simple_Accumulator.dense_read_init, Lazy_Accumulator.lazy_read_init]
  have hfun : ((Simple_Accumulator.init numDocs).applyAll (writesOf postings)).read =
      ((Lazy_Accumulator.init blockSize numDocs).applyAll (writesOf postings)).read :=
    funext hreads
  unfold ranked_or_taat_dense ranked_or_taat_lazy
  rw [hfun]

/-- Witness for claim C3 on concrete postings with an overlapping
document. -/
theorem claim_C3_witness :
    ranked_or_taat_dense 2 5 [[(0, (2 : Score)), (3, 1)], [(3, 1), (4, 3)]] =
      ranked_or_taat_lazy 2 4 5 [[(0, (2 : Score)), (3, 1)], [(3, 1), (4, 3)]] :=
  claim_C3 2 4 5 _ (by decide) (by decide)

/-- Claim C7 (amended): in the term-at-a-time branches the driver
allocates the accumulator exactly once per query set, before the query
loop; the reused accumulator is reset at the start of each evaluation, so
each query's result is independent of the accumulator state left by the
previous queries and no state carries from one query into the next. -/
theorem claim_C7 :
    (∀ (cfg : EvalConfig) (engine : Nat → Alg → List Nat → List Result)
        (docmap : List String) (queries : List Query),
      (cfg.queryType = "ranked_or_taat" ∨ cfg.queryType = "ranked_or_taat_lazy") →
      cfg.wandPresent = true → cfg.wandMapError = false →
      (evaluate_queries cfg engine docmap queries).accAllocs = 1) ∧
    (∀ (k numDocs : Nat) (postingsOf : Nat → List (Nat × Score))
        (acc : Simple_Accumulator) (qs : List (List Nat)),
      acc.scores.length = numDocs →
      taatRun k numDocs postingsOf acc qs =
        qs.map (fun ts => ranked_or_taat_dense k numDocs (ts.map postingsOf))) := by
  constructor
  · intro cfg engine docmap queries hqt hwp hmap
    rcases hqt with hqt | hqt
    · have hsel : selectAlgorithm cfg.queryType cfg.wandPresent =
          some Alg.rankedOrTaat := by
        rw [hqt, hwp]; decide
      simp [evaluate_queries, hmap, hsel]
    · have hsel : selectAlgorithm cfg.queryType cfg.wandPresent =
          some Alg.rankedOrTaatLazy := by
        rw [hqt, hwp]; decide
      simp [evaluate_queries, hmap, hsel]
  · intro k numDocs postingsOf acc qs hlen
    exact taatRun_eq k numDocs postingsOf qs acc hlen

/-- Counterexample to claim C7 as stated: a run of the ranked_or_taat
branch over two queries performs two per-query evaluations but allocates
the accumulator only once, so the accumulator is not created fresh per
query evaluation. -/
theorem claim_C7_counterexample :
    (evaluate_queries ⟨true, false, "ranked_or_taat", 10, "Q0", "R0"⟩
        (fun _ _ _ => []) [] [⟨some "a", []⟩, ⟨some "b", []⟩]).invocations = 2 ∧
    (evaluate_queries ⟨true, false, "ranked_or_taat", 10, "Q0", "R0"⟩
        (fun _ _ _ => []) [] [⟨some "a", []⟩, ⟨some "b", []⟩]).accAllocs = 1 ∧
    (evaluate_queries ⟨true, false, "ranked_or_taat", 10, "Q0", "R0"⟩
        (fun _ _ _ => []) [] [⟨some "a", []⟩, ⟨some "b", []⟩]).accAllocs ≠
      (evaluate_queries ⟨true, false, "ranked_or_taat", 10, "Q0", "R0"⟩
        (fun _ _ _ => []) [] [⟨some "a", []⟩, ⟨some "b", []⟩]).invocations := by
  decide

/-- Witness for claim C7: a concrete taat run whose reused accumulator
starts from nonzero garbage and still computes each query independently. -/
theorem claim_C7_witness :
    (evaluate_queries ⟨true, false, "ranked_or_taat_lazy", 10, "Q0", "R0"⟩
        (fun _ _ _ => []) [] []).accAllocs = 1 ∧
    taatRun 2 3 (fun t => [(t, (1 : Score))]) ⟨[5, 5, 5]⟩ [[0], [1]] =
      [[0], [1]].map
        (fun ts => ranked_or_taat_dense 2 3 (ts.map (fun t => [(t, (1 : Score))]))) :=
  ⟨claim_C7.1 _ _ _ _ (Or.inr rfl) rfl rfl,
   claim_C7.2 2 3 _ ⟨[5, 5, 5]⟩ _ (by decide)⟩

end PisaEval
